import Mathlib

/-!
Shallow embedding of the OCR / contract-extraction core of
`functions-python/main.py` (class `OCRService`), together with proofs of the
behavioural claims about it.

Text is modelled as `List Char` (Python `str` is a sequence of code points;
positions are zero-based code-point offsets).  Python floats are modelled as
exact rationals.  Each regular expression used by the source is embedded as a
bespoke matcher implementing Python `re` semantics (leftmost match, greedy
quantifiers with backtracking, non-overlapping `finditer` scan) for that
concrete pattern.
-/

namespace ContractOCR

/-- Python whitespace (`str.strip`, regex `\s`): ASCII whitespace together with
the ideographic space U+3000, which Python also treats as whitespace. -/
def isPySpace (c : Char) : Bool :=
  c = ' ' || c = '\t' || c = '\n' || c = '\r' || c = '\x0b' || c = '\x0c' || c = '　'

/-- `str.strip()`: drop leading and trailing whitespace. -/
def pstrip (cs : List Char) : List Char :=
  ((cs.dropWhile isPySpace).reverse.dropWhile isPySpace).reverse

/-- Python's substring operator `needle in hay`. -/
def isSubstr (needle : List Char) : List Char → Bool
  | [] => needle.isPrefixOf []
  | c :: rest => needle.isPrefixOf (c :: rest) || isSubstr needle rest

/-- Numeric value of a list of decimal digit characters. -/
def digitsVal (cs : List Char) : Nat :=
  cs.foldl (fun a c => a * 10 + (c.toNat - 48)) 0

/-- Word characters (regex `\w`: Unicode letters, digits and the underscore),
restricted to the scripts contract text uses: ASCII alphanumerics and
underscore, Hiragana and Katakana letters (not punctuation), CJK ideographs,
and the fullwidth digits, Latin letters and low line. -/
def isWordChar (c : Char) : Bool :=
  c.isAlphanum || c = '_' ||
  (0x3041 ≤ c.toNat && c.toNat ≤ 0x3096) ||
  (0x309D ≤ c.toNat && c.toNat ≤ 0x309F) ||
  (0x30A1 ≤ c.toNat && c.toNat ≤ 0x30FA) ||
  (0x30FC ≤ c.toNat && c.toNat ≤ 0x30FF) ||
  (0x4E00 ≤ c.toNat && c.toNat ≤ 0x9FFF) ||
  (0xFF10 ≤ c.toNat && c.toNat ≤ 0xFF19) ||
  (0xFF21 ≤ c.toNat && c.toNat ≤ 0xFF3A) ||
  (0xFF41 ≤ c.toNat && c.toNat ≤ 0xFF5A) ||
  c.toNat = 0xFF3F

/-- A character matched by `[\w\s]`. -/
def isWordOrSpace (c : Char) : Bool :=
  isWordChar c || isPySpace c

/-- `re.finditer` engine: `m` inspects the suffix of the text that starts at
the scan position and reports the length of the match there together with its
captured payload.  On a match of length `L` the scan resumes after it
(`max L 1` steps forward, as `re` does); otherwise it advances one position. -/
def finditerFrom (m : List Char → Option (Nat × α)) (cs : List Char) :
    Nat → Nat → List (Nat × Nat × α)
  | _, 0 => []
  | i, fuel+1 =>
    if i < cs.length then
      match m (cs.drop i) with
      | some (L, a) => (i, L, a) :: finditerFrom m cs (i + max L 1) fuel
      | none => finditerFrom m cs (i + 1) fuel
    else []

/-- All matches of `m` in `cs`, as `(position, length, payload)` triples. -/
def finditer (m : List Char → Option (Nat × α)) (cs : List Char) :
    List (Nat × Nat × α) :=
  finditerFrom m cs 0 (cs.length + 1)

theorem finditerFrom_pos_ge (m : List Char → Option (Nat × α)) (cs : List Char) :
    ∀ fuel i, ∀ e ∈ finditerFrom m cs i fuel, i ≤ e.1 := by
  intro fuel
  induction fuel with
  | zero => intro i e h; simp [finditerFrom] at h
  | succ n ih =>
    intro i e h
    unfold finditerFrom at h
    split at h
    · split at h
      · rcases List.mem_cons.mp h with rfl | h'
        · exact Nat.le_refl _
        · exact Nat.le_trans (Nat.le_add_right i _) (ih _ _ h')
      · exact Nat.le_trans (Nat.le_add_right i 1) (ih _ _ h)
    · simp at h

/-- Positions reported by the scanner are strictly increasing. -/
theorem finditerFrom_chain (m : List Char → Option (Nat × α)) (cs : List Char) :
    ∀ fuel i, List.Chain' (fun a b => a.1 < b.1) (finditerFrom m cs i fuel) := by
  intro fuel
  induction fuel with
  | zero => intro i; simp [finditerFrom]
  | succ n ih =>
    intro i
    unfold finditerFrom
    split
    · split
      · refine List.chain'_cons'.mpr ⟨?_, ih _⟩
        intro y hy
        have := finditerFrom_pos_ge m cs n _ y (List.mem_of_mem_head? hy)
        calc i < i + max _ 1 := Nat.lt_add_of_pos_right (Nat.lt_of_lt_of_le Nat.zero_lt_one (Nat.le_max_right _ 1))
          _ ≤ y.1 := this
      · exact ih _
    · simp

theorem finditer_chain (m : List Char → Option (Nat × α)) (cs : List Char) :
    List.Chain' (fun a b => a.1 < b.1) (finditer m cs) :=
  finditerFrom_chain m cs _ 0

/-- Every triple reported by the scanner is a genuine match of `m` at its
reported position. -/
theorem finditerFrom_sound (m : List Char → Option (Nat × α)) (cs : List Char) :
    ∀ fuel i, ∀ e ∈ finditerFrom m cs i fuel, m (cs.drop e.1) = some (e.2.1, e.2.2) := by
  intro fuel
  induction fuel with
  | zero => intro i e h; simp [finditerFrom] at h
  | succ n ih =>
    intro i e h
    unfold finditerFrom at h
    split at h
    · split at h
      · next L a hm =>
        rcases List.mem_cons.mp h with rfl | h'
        · exact hm
        · exact ih _ _ h'
      · exact ih _ _ h
    · simp at h

theorem finditer_sound (m : List Char → Option (Nat × α)) (cs : List Char) :
    ∀ e ∈ finditer m cs, m (cs.drop e.1) = some (e.2.1, e.2.2) :=
  finditerFrom_sound m cs _ 0

/-! ### Date patterns (`OCRService.extract_dates`)

The four shapes the source recognises:
`(\d{4})年(\d{1,2})月(\d{1,2})日`, `(\d{4})/(\d{1,2})/(\d{1,2})`,
`(\d{4})-(\d{1,2})-(\d{1,2})` and `(\d{1,2})/(\d{1,2})/(\d{4})`. -/

/-- `\d{4}` at the head of the suffix: the four digit values and the rest. -/
def matchD4 : List Char → Option (Nat × List Char)
  | a :: b :: c :: d :: rest =>
    if a.isDigit && b.isDigit && c.isDigit && d.isDigit then
      some (digitsVal [a, b, c, d], rest)
    else none
  | _ => none

/-- A literal character at the head of the suffix. -/
def matchLit (lit : Char) : List Char → Option (List Char)
  | c :: rest => if c = lit then some rest else none
  | [] => none

/-- Greedy `\d{1,2}` followed by a (non-digit) literal; returns the consumed
length (digits plus the literal), the numeric value and the rest. -/
def matchD12Lit (lit : Char) : List Char → Option (Nat × Nat × List Char)
  | a :: b :: rest =>
    if a.isDigit then
      if b.isDigit then
        match rest with
        | l :: rest2 => if l = lit then some (3, digitsVal [a, b], rest2) else none
        | [] => none
      else if b = lit then some (2, digitsVal [a], rest)
      else none
    else none
  | _ => none

/-- Greedy `\d{1,2}` with nothing after it in the pattern. -/
def matchD12End : List Char → Option (Nat × Nat)
  | a :: b :: _ =>
    if a.isDigit then
      if b.isDigit then some (2, digitsVal [a, b]) else some (1, digitsVal [a])
    else none
  | [a] => if a.isDigit then some (1, digitsVal [a]) else none
  | [] => none

/-- `(\d{4})年(\d{1,2})月(\d{1,2})日`; payload `(year, month, day)`. -/
def matchDateJp (s : List Char) : Option (Nat × (Nat × Nat × Nat)) :=
  match matchD4 s with
  | none => none
  | some (y, r1) =>
    match matchLit '年' r1 with
    | none => none
    | some r2 =>
      match matchD12Lit '月' r2 with
      | none => none
      | some (c1, mo, r3) =>
        match matchD12Lit '日' r3 with
        | none => none
        | some (c2, dy, _) => some (5 + c1 + c2, (y, mo, dy))

/-- `(\d{4})sep(\d{1,2})sep(\d{1,2})`; payload `(year, month, day)`. -/
def matchDateSep (sep : Char) (s : List Char) : Option (Nat × (Nat × Nat × Nat)) :=
  match matchD4 s with
  | none => none
  | some (y, r1) =>
    match matchLit sep r1 with
    | none => none
    | some r2 =>
      match matchD12Lit sep r2 with
      | none => none
      | some (c1, mo, r3) =>
        match matchD12End r3 with
        | none => none
        | some (c2, dy) => some (5 + c1 + c2, (y, mo, dy))

/-- `(\d{1,2})/(\d{1,2})/(\d{4})`; payload normalised to `(year, month, day)`
exactly as the source reorders the groups for its `us_format`. -/
def matchDateUs (s : List Char) : Option (Nat × (Nat × Nat × Nat)) :=
  match matchD12Lit '/' s with
  | none => none
  | some (c1, mo, r1) =>
    match matchD12Lit '/' r1 with
    | none => none
    | some (c2, dy, r2) =>
      match matchD4 r2 with
      | none => none
      | some (y, _) => some (c1 + c2 + 4, (y, mo, dy))

/-- Gregorian leap year, as `datetime` uses. -/
def isLeapYear (y : Nat) : Bool :=
  (y % 4 == 0 && y % 100 != 0) || y % 400 == 0

def daysInMonth (y m : Nat) : Nat :=
  if m = 2 then (if isLeapYear y then 29 else 28)
  else if m = 4 ∨ m = 6 ∨ m = 9 ∨ m = 11 then 30
  else 31

/-- The triples `datetime(year, month, day)` accepts; anything else raises
`ValueError` (caught and skipped by the source). -/
def validDate (y m d : Nat) : Bool :=
  1 ≤ y && y ≤ 9999 && 1 ≤ m && m ≤ 12 && 1 ≤ d && d ≤ daysInMonth y m

/-- Decimal numeral left-padded with zeros to the given width. -/
def padNum (width n : Nat) : List Char :=
  List.replicate (width - (toString n).data.length) '0' ++ (toString n).data

/-- `datetime(y, m, d).isoformat()`: a midnight timestamp, not a bare date. -/
def isoformat (y m d : Nat) : List Char :=
  padNum 4 y ++ ['-'] ++ padNum 2 m ++ ['-'] ++ padNum 2 d ++ "T00:00:00".data

structure DateEntry where
  date : String
  original_text : String
  position : Nat
deriving Repr, DecidableEq

/-- The pooled syntactic matches of the four date patterns, in the source's
pattern order: `(position, length, (year, month, day))`. -/
def rawDateMatches (cs : List Char) : List (Nat × Nat × (Nat × Nat × Nat)) :=
  finditer matchDateJp cs ++ finditer (matchDateSep '/') cs ++
    finditer (matchDateSep '-') cs ++ finditer matchDateUs cs

/-- The `try` body of the source: construct the calendar date and record it;
a `ValueError` (invalid calendar date) silently discards the match. -/
def dateEntryOfMatch (cs : List Char) (e : Nat × Nat × (Nat × Nat × Nat)) :
    Option DateEntry :=
  if validDate e.2.2.1 e.2.2.2.1 e.2.2.2.2 then
    some ⟨⟨isoformat e.2.2.1 e.2.2.2.1 e.2.2.2.2⟩, ⟨(cs.drop e.1).take e.2.1⟩, e.1⟩
  else none

/-- `all_dates` before sorting. -/
def allDatesPool (cs : List Char) : List DateEntry :=
  (rawDateMatches cs).filterMap (dateEntryOfMatch cs)

/-- The sort key of `sorted(all_dates, key=lambda x: x['position'])`. -/
def dateLe (a b : DateEntry) : Prop := a.position ≤ b.position

instance : DecidableRel dateLe := fun _ _ => Nat.decLe _ _

instance : IsTotal DateEntry dateLe := ⟨fun _ _ => Nat.le_total _ _⟩

instance : IsTrans DateEntry dateLe := ⟨fun _ _ _ => Nat.le_trans⟩

structure DatesResult where
  contract_date : Option DateEntry
  effective_date : Option DateEntry
  expiration_date : Option DateEntry
  all_dates : List DateEntry
deriving Repr, DecidableEq

/-- `OCRService.extract_dates`; `none` is the empty dict returned when no
valid date was found. -/
def extract_dates (cs : List Char) : Option DatesResult :=
  let all_dates := allDatesPool cs
  if all_dates.isEmpty then none
  else
    let sorted_dates := all_dates.insertionSort dateLe
    some {
      contract_date := sorted_dates.head?
      effective_date := sorted_dates[1]?
      expiration_date := if 2 < sorted_dates.length then sorted_dates.getLast? else none
      all_dates := sorted_dates
    }

/-! ### Party patterns (`OCRService.extract_parties`)

The source's first two patterns wrap the entity-suffix words in square
brackets, so each is a character *class*: a single character drawn from the
distinct characters of
`株式会社|有限会社|合同会社|合資会社|合名会社|一般社団法人|公益社団法人|学校法人|医療法人`
(including the literal `|`). -/

def entityClassChars : List Char :=
  ['株', '式', '会', '社', '|', '有', '限', '合', '同', '資', '名', '一', '般',
   '団', '法', '人', '公', '益', '学', '校', '医', '療']

def isEntityClassChar (c : Char) : Bool := entityClassChars.contains c

/-- `([株式会社|…][\w\s]+)`: one class character then a greedy nonempty run of
word/space characters. -/
def matchParty1 (s : List Char) : Option (Nat × List Char) :=
  match s with
  | c :: rest =>
    if isEntityClassChar c then
      let run := rest.takeWhile isWordOrSpace
      if run.isEmpty then none else some (1 + run.length, c :: run)
    else none
  | [] => none

/-- Largest `k` in `[1, n]` satisfying `p`. -/
def findLastIdx (p : Nat → Bool) : Nat → Option Nat
  | 0 => none
  | n+1 => if p (n+1) then some (n+1) else findLastIdx p n

/-- `([\w\s]+[株式会社|…])`: a greedy nonempty run of word/space characters
followed by one class character; the greedy run backtracks to the last class
character reachable through word/space characters. -/
def matchParty2 (s : List Char) : Option (Nat × List Char) :=
  let run := s.takeWhile isWordOrSpace
  if run.isEmpty then none
  else
    match findLastIdx
        (fun k => match s[k]? with
          | some c => isEntityClassChar c
          | none => false) run.length with
    | some k => some (k + 1, s.take (k + 1))
    | none => none

def isUpperAZ (c : Char) : Bool := 'A' ≤ c && c ≤ 'Z'

def isLowerAZ (c : Char) : Bool := 'a' ≤ c && c ≤ 'z'

/-- `[A-Z][a-z]+`. -/
def matchWordCap (s : List Char) : Option (Nat × List Char) :=
  match s with
  | c :: rest =>
    if isUpperAZ c then
      let run := rest.takeWhile isLowerAZ
      if run.isEmpty then none else some (1 + run.length, c :: run)
    else none
  | [] => none

/-- First alternative of `(?:…|…)` that is a prefix of the suffix. -/
def matchAlt (alts : List (List Char)) (s : List Char) : Option (Nat × List Char) :=
  match alts with
  | [] => none
  | a :: rest => if a.isPrefixOf s then some (a.length, a) else matchAlt rest s

def corpSuffixes : List (List Char) :=
  ["Inc.".data, "Corp.".data, "Ltd.".data, "LLC".data, "Co.".data]

/-- `[A-Z][a-z]+` then a literal space. -/
def matchWordCapSp (s : List Char) : Option (Nat × List Char) :=
  match matchWordCap s with
  | none => none
  | some (l1, w1) =>
    match matchLit ' ' (s.drop l1) with
    | none => none
    | some _ => some (l1 + 1, w1 ++ [' '])

/-- `([A-Z][a-z]+ [A-Z][a-z]+ (?:Inc\.|Corp\.|Ltd\.|LLC|Co\.))`. -/
def matchParty3 (s : List Char) : Option (Nat × List Char) :=
  match matchWordCapSp s with
  | none => none
  | some (l1, w1) =>
    match matchWordCapSp (s.drop l1) with
    | none => none
    | some (l2, w2) =>
      match matchAlt corpSuffixes (s.drop (l1 + l2)) with
      | none => none
      | some (l3, sfx) => some (l1 + l2 + l3, w1 ++ w2 ++ sfx)

structure Party where
  name : String
  type : String
  position : Nat
deriving Repr, DecidableEq

/-- Loop body of the match loop: keep a match only if the stripped captured
name has more than two characters. -/
def partyOfMatch (e : Nat × Nat × List Char) : Option Party :=
  let nm := pstrip e.2.2
  if nm.length > 2 then some ⟨⟨nm⟩, "company", e.1⟩ else none

/-- The `parties` accumulator after the three pattern loops, in the source's
pattern-major order. -/
def rawParties (cs : List Char) : List Party :=
  (finditer matchParty1 cs).filterMap partyOfMatch ++
    (finditer matchParty2 cs).filterMap partyOfMatch ++
    (finditer matchParty3 cs).filterMap partyOfMatch

/-- The dedup loop: keep a party only if its exact name has not been seen. -/
def dedupParties : List Party → List String → List Party
  | [], _ => []
  | p :: rest, seen =>
    if p.name ∈ seen then dedupParties rest seen
    else p :: dedupParties rest (p.name :: seen)

/-- `OCRService.extract_parties`. -/
def extract_parties (cs : List Char) : List Party :=
  (dedupParties (rawParties cs) []).take 10

theorem dedupParties_not_seen :
    ∀ l seen, ∀ p ∈ dedupParties l seen, p.name ∉ seen := by
  intro l
  induction l with
  | nil => intro seen p h; simp [dedupParties] at h
  | cons q rest ih =>
    intro seen p h
    unfold dedupParties at h
    split at h
    · exact ih _ _ h
    · rcases List.mem_cons.mp h with rfl | h'
      · assumption
      · intro hmem
        exact ih _ _ h' (List.mem_cons_of_mem _ hmem)

theorem dedupParties_nodup :
    ∀ l seen, ((dedupParties l seen).map Party.name).Nodup := by
  intro l
  induction l with
  | nil => intro seen; simp [dedupParties]
  | cons q rest ih =>
    intro seen
    unfold dedupParties
    split
    · exact ih _
    · refine List.nodup_cons.mpr ⟨?_, ih _⟩
      intro hmem
      rcases List.mem_map.mp hmem with ⟨p, hp, hname⟩
      exact dedupParties_not_seen rest _ p hp (hname ▸ List.mem_cons_self _ _)

theorem dedupParties_sublist : ∀ l seen, List.Sublist (dedupParties l seen) l := by
  intro l
  induction l with
  | nil => intro seen; simp [dedupParties]
  | cons q rest ih =>
    intro seen
    unfold dedupParties
    split
    · exact (ih _).cons _
    · exact (ih _).cons₂ _

/-! ### Amount patterns (`OCRService.extract_amounts`) -/

/-- First `f`-success along a list of backtracking candidates. -/
def firstSome (f : α → Option β) : List α → Option β
  | [] => none
  | a :: rest =>
    match f a with
    | some b => some b
    | none => firstSome f rest

/-- Greedy candidates for `\d{1,3}`: up to the first three digits, longest
first, as `(length, digits)`. -/
def d13Opts (s : List Char) : List (Nat × List Char) :=
  let run := (s.takeWhile Char.isDigit).take 3
  (List.range run.length).map (fun i => (run.length - i, run.take (run.length - i)))

/-- Greedy candidates for `(?:,\d{3})*`: every number of comma groups the
suffix admits, longest first, as `(consumed length, digit chars)`. -/
def commaGroups : List Char → List (Nat × List Char)
  | ',' :: a :: b :: c :: rest =>
    if a.isDigit && b.isDigit && c.isDigit then
      (commaGroups rest).map (fun e => (e.1 + 4, a :: b :: c :: e.2)) ++ [(0, [])]
    else [(0, [])]
  | _ => [(0, [])]

/-- Greedy candidates for `(?:\.\d{2})?`: with the decimal part first. -/
def decimalOpts (s : List Char) : List (Nat × List Char) :=
  match s with
  | '.' :: a :: b :: _ =>
    if a.isDigit && b.isDigit then [(3, ['.', a, b]), (0, [])] else [(0, [])]
  | _ => [(0, [])]

/-- The captured group `\d{1,3}(?:,\d{3})*(?:\.\d{2})?` with regex
backtracking; `after` consumes whatever of the pattern follows the group and
reports its length.  Returns the total match length (group plus tail) and the
group's captured characters, commas and point included. -/
def matchNumberCore (after : List Char → Option Nat) (s : List Char) :
    Option (Nat × List Char) :=
  firstSome (fun kd =>
    firstSome (fun cg =>
      firstSome (fun dc =>
        match after (s.drop (kd.1 + cg.1 + dc.1)) with
        | some ex => some (kd.1 + cg.1 + dc.1 + ex, s.take (kd.1 + cg.1 + dc.1))
        | none => none)
        (decimalOpts (s.drop (kd.1 + cg.1))))
      (commaGroups (s.drop kd.1)))
    (d13Opts s)

/-- `(\d{1,3}(?:,\d{3})*(?:\.\d{2})?)(?:円|万円|億円)`. -/
def matchAmountYenUnit (s : List Char) : Option (Nat × List Char) :=
  matchNumberCore
    (fun r => (matchAlt [['円'], ['万', '円'], ['億', '円']] r).map (·.1)) s

/-- `¥(\d{1,3}(?:,\d{3})*(?:\.\d{2})?)` (yen sign U+00A5). -/
def matchAmountYenSign (s : List Char) : Option (Nat × List Char) :=
  match s with
  | '¥' :: rest =>
    match matchNumberCore (fun _ => some 0) rest with
    | some (L, g) => some (L + 1, g)
    | none => none
  | _ => none

/-- `\$(\d{1,3}(?:,\d{3})*(?:\.\d{2})?)`. -/
def matchAmountDollar (s : List Char) : Option (Nat × List Char) :=
  match s with
  | '$' :: rest =>
    match matchNumberCore (fun _ => some 0) rest with
    | some (L, g) => some (L + 1, g)
    | none => none
  | _ => none

/-- `(\d{1,3}(?:,\d{3})*(?:\.\d{2})?) *(?:USD|JPY|EUR)`. -/
def matchAmountCode (s : List Char) : Option (Nat × List Char) :=
  matchNumberCore
    (fun r =>
      let sp := (r.takeWhile (· = ' ')).length
      (matchAlt ["USD".data, "JPY".data, "EUR".data] (r.drop sp)).map (sp + ·.1)) s

/-- `float(re.sub(r'[^\d.]', '', group))`; `none` is the `ValueError` branch
the source discards. -/
def parseFloat (cs : List Char) : Option ℚ :=
  let cleaned := cs.filter (fun c => c.isDigit || c = '.')
  match cleaned.splitOn '.' with
  | [ds] => if ds.isEmpty then none else some (digitsVal ds)
  | [ds, fs] =>
    if ds.isEmpty && fs.isEmpty then none
    else some ((digitsVal ds : ℚ) + (digitsVal fs : ℚ) / (10 : ℚ) ^ fs.length)
  | _ => none

/-- `OCRService.detect_currency`, applied to the full matched text. -/
def detect_currency (s : List Char) : String :=
  if isSubstr ['円'] s || isSubstr ['¥'] s || isSubstr "JPY".data s then
    "JPY"
  else if isSubstr ['$'] s || isSubstr "USD".data s then "USD"
  else if isSubstr "EUR".data s || isSubstr ['€'] s then "EUR"
  else "UNKNOWN"

structure Amount where
  value : ℚ
  original_text : String
  currency : String
  position : Nat
deriving Repr, DecidableEq

/-- Loop body of the amount loop: full matched text, parsed value, currency. -/
def amountOfMatch (cs : List Char) (e : Nat × Nat × List Char) : Option Amount :=
  let full := (cs.drop e.1).take e.2.1
  match parseFloat e.2.2 with
  | some v => some ⟨v, ⟨full⟩, detect_currency full, e.1⟩
  | none => none

/-- The `amounts` accumulator after the four pattern loops. -/
def rawAmounts (cs : List Char) : List Amount :=
  (finditer matchAmountYenUnit cs).filterMap (amountOfMatch cs) ++
    (finditer matchAmountYenSign cs).filterMap (amountOfMatch cs) ++
    (finditer matchAmountDollar cs).filterMap (amountOfMatch cs) ++
    (finditer matchAmountCode cs).filterMap (amountOfMatch cs)

/-- `OCRService.extract_amounts`. -/
def extract_amounts (cs : List Char) : List Amount :=
  (rawAmounts cs).take 5

/-! ### Key terms (`OCRService.extract_key_terms`) -/

def importantKeywords : List (List Char) :=
  ["責任", "義務", "権利", "保証", "補償", "違約金", "解除", "終了",
   "更新", "延長", "変更", "修正", "通知", "承諾", "合意", "協議",
   "支払", "料金", "費用", "手数料", "税金", "消費税"].map String.data

def highKeywords : List (List Char) :=
  ["責任", "義務", "違約金", "解除"].map String.data

structure KeyTerm where
  keyword : String
  text : String
  importance : String
deriving Repr, DecidableEq

/-- `re.split(r'[。．\n]', text)` (ideographic and fullwidth full stops). -/
def sentencesOf (cs : List Char) : List (List Char) :=
  cs.splitOnP (fun c => c = '。' || c = '．' || c = '\n')

/-- The `key_terms` accumulator: keyword-major scan over sentences. -/
def rawKeyTerms (cs : List Char) : List KeyTerm :=
  importantKeywords.flatMap (fun kw =>
    (sentencesOf cs).filterMap (fun sen =>
      if isSubstr kw sen ∧ (pstrip sen).length > 10 then
        some ⟨⟨kw⟩, ⟨pstrip sen⟩,
          if highKeywords.contains kw then "high" else "medium"⟩
      else none))

/-- `OCRService.extract_key_terms`. -/
def extract_key_terms (cs : List Char) : List KeyTerm :=
  (rawKeyTerms cs).take 20

/-! ### Clause classification (`OCRService.classify_clauses`) -/

structure Clause where
  type : String
  content : String
  keyword : String
deriving Repr, DecidableEq

def clauseTypes : List (String × List (List Char)) :=
  [("payment", ["支払", "料金", "費用", "代金", "報酬"].map String.data),
   ("termination", ["解除", "終了", "破棄", "無効"].map String.data),
   ("liability", ["責任", "損害", "補償", "賠償"].map String.data),
   ("confidentiality", ["秘密", "機密", "守秘", "開示"].map String.data),
   ("intellectual_property", ["知的財産", "著作権", "特許", "商標"].map String.data),
   ("general", ["一般", "雑則", "準拠法", "管轄"].map String.data)]

/-- Greatest index of `'\n'` in the run, if any. -/
def lastNewlineIdx (run : List Char) : Option Nat :=
  match run.reverse.findIdx? (· = '\n') with
  | some j => some (run.length - 1 - j)
  | none => none

/-- One match of `\n\s*\n`: a newline whose following whitespace run contains
another newline; greedy `\s*` backtracks to the last such newline. -/
def matchParaBreak (s : List Char) : Option (Nat × Unit) :=
  match s with
  | '\n' :: rest =>
    let run := rest.takeWhile isPySpace
    match lastNewlineIdx run with
    | some j => some (j + 2, ())
    | none => none
  | _ => none

/-- Slice `cs` around the given `(position, length)` matches. -/
def splitByMatches (cs : List Char) : List (Nat × Nat) → Nat → List (List Char)
  | [], start => [cs.drop start]
  | (p, L) :: rest, start => (cs.drop start).take (p - start) :: splitByMatches cs rest (p + L)

/-- `re.split(r'\n\s*\n', text)`. -/
def paragraphsOf (cs : List Char) : List (List Char) :=
  splitByMatches cs ((finditer matchParaBreak cs).map (fun e => (e.1, e.2.1))) 0

/-- `OCRService.classify_clauses`.  For each category the keyword loop runs
over all of the category's keywords; the `break` of the source leaves only the
paragraph loop, so each keyword that occurs in the text contributes the first
qualifying paragraph. -/
def classify_clauses (cs : List Char) : List Clause :=
  clauseTypes.flatMap (fun ct =>
    ct.2.filterMap (fun kw =>
      if isSubstr kw cs then
        ((paragraphsOf cs).find? (fun para =>
            isSubstr kw para && decide ((pstrip para).length > 20))).map
          (fun para => ⟨ct.1, ⟨(pstrip para).take 500⟩, ⟨kw⟩⟩)
      else none))

structure ContractInfo where
  parties : List Party
  dates : Option DatesResult
  amounts : List Amount
  key_terms : List KeyTerm
  clauses : List Clause
deriving Repr, DecidableEq

/-- `OCRService.extract_contract_information` (spec: `extractContractInfo`). -/
def extract_contract_information (cs : List Char) : ContractInfo :=
  ⟨extract_parties cs, extract_dates cs, extract_amounts cs,
    extract_key_terms cs, classify_clauses cs⟩

/-! ### Optical recognition adapter (`OCRService.extract_text_with_vision_api`)

The remote response is abstracted to the data the source reads from it:
either an error message (`response.error.message`, which the source turns into
a raised and then caught exception) or an optional full-text annotation tree
of pages, blocks, paragraphs and words, each word carrying its symbol texts
and a confidence. -/

structure VisionWord where
  symbols : List String
  confidence : ℚ
deriving Repr, DecidableEq

structure VisionParagraph where
  words : List VisionWord
deriving Repr, DecidableEq

structure VisionBlock where
  paragraphs : List VisionParagraph
deriving Repr, DecidableEq

structure VisionPage where
  blocks : List VisionBlock
deriving Repr, DecidableEq

structure VisionDoc where
  text : String
  pages : List VisionPage
deriving Repr, DecidableEq

inductive VisionResponse where
  | err (msg : String)
  | ok (doc : Option VisionDoc)
deriving Repr, DecidableEq

structure Block where
  text : String
  confidence : ℚ
deriving Repr, DecidableEq

structure Page where
  page_number : Nat
  text : String
  method : Option String
  blocks : Option (List Block)
deriving Repr, DecidableEq

structure Metadata where
  method : Option String
  language_hints : Option (List String)
  error : Option String
deriving Repr, DecidableEq

def emptyMetadata : Metadata := ⟨none, none, none⟩

structure ExtractedDocument where
  text : String
  pages : List Page
  metadata : Metadata
  confidence : ℚ
deriving Repr, DecidableEq

/-- `word_text = ''.join(symbol.text for symbol in word.symbols)`. -/
def wordTextOf (w : VisionWord) : List Char :=
  (w.symbols.map String.data).flatten

/-- `paragraph_text`: each word followed by a space. -/
def paragraphTextOf (p : VisionParagraph) : List Char :=
  p.words.flatMap (fun w => wordTextOf w ++ [' '])

/-- `block_text`: each paragraph followed by a newline. -/
def blockTextOf (b : VisionBlock) : List Char :=
  b.paragraphs.flatMap (fun p => paragraphTextOf p ++ ['\n'])

def pageTextOf (pg : VisionPage) : List Char :=
  pg.blocks.flatMap blockTextOf

def blockConfSum (b : VisionBlock) : ℚ :=
  (b.paragraphs.map (fun p => (p.words.map (·.confidence)).sum)).sum

def blockWordCount (b : VisionBlock) : Nat :=
  (b.paragraphs.map (fun p => p.words.length)).sum

/-- `total_confidence`: the sum of every word confidence in the document. -/
def docConfSum (d : VisionDoc) : ℚ :=
  (d.pages.map (fun pg => (pg.blocks.map blockConfSum).sum)).sum

/-- `word_count`: the number of words in the document. -/
def docWordCount (d : VisionDoc) : Nat :=
  (d.pages.map (fun pg => (pg.blocks.map blockWordCount).sum)).sum

/-- The per-block records: `block_confidence` is initialised to `0` and never
accumulated by the source, so the stored confidence is `0 / max(count, 1)`. -/
def blocksOf (pg : VisionPage) : List Block :=
  pg.blocks.map (fun b =>
    ⟨⟨pstrip (blockTextOf b)⟩, (0 : ℚ) / ((max b.paragraphs.length 1 : ℕ) : ℚ)⟩)

/-- Page records, numbered by `len(extracted_data['pages']) + 1`. -/
def visionPagesFrom : List VisionPage → Nat → List Page
  | [], _ => []
  | pg :: rest, i => ⟨i + 1, ⟨pageTextOf pg⟩, none, some (blocksOf pg)⟩ :: visionPagesFrom rest (i + 1)

def visionPages (d : VisionDoc) : List Page :=
  visionPagesFrom d.pages 0

/-- `OCRService.extract_text_with_vision_api`.  A reported service error is
raised and caught, yielding the empty result with `metadata.error`; a missing
annotation yields empty text with the method metadata and no error entry. -/
def extract_text_with_vision_api : VisionResponse → ExtractedDocument
  | .err msg => ⟨"", [], ⟨none, none, some ("Vision API error: " ++ msg)⟩, 0⟩
  | .ok none => ⟨"", [], ⟨some "Vision API", some ["ja", "en"], none⟩, 0⟩
  | .ok (some d) =>
    ⟨d.text, visionPages d, ⟨some "Vision API", some ["ja", "en"], none⟩,
      docConfSum d / ((max (docWordCount d) 1 : ℕ) : ℚ)⟩

/-! ### Text recovery chain (`OCRService.extract_text_from_pdf`)

A PDF document is abstracted to what the two structural libraries and the
recognition service would return for it: the page texts each library yields
(in order, up to the point where it raises, if it does) and the vision
response.  `PyPDF2.extract_text()` returns a string; `pdfplumber` may return
`None`. -/

structure PdfStage1 where
  pages : List String
  error : Option String
deriving Repr, DecidableEq

structure PdfStage2 where
  pages : List (Option String)
  error : Option String
deriving Repr, DecidableEq

structure PdfDoc where
  s1 : PdfStage1
  s2 : PdfStage2
  vision : VisionResponse
deriving Repr, DecidableEq

/-- `f"\n--- Page {page_num + 1} ---\n"`. -/
def pageMarker (n : Nat) : List Char :=
  "\n--- Page ".data ++ (toString n).data ++ " ---\n".data

/-- Page entries the PyPDF2 loop appends: pages whose stripped text is
non-empty, numbered by their 1-based index among all iterated pages. -/
def stage1Pages : List String → Nat → List Page
  | [], _ => []
  | p :: rest, i =>
    if (pstrip p.data).isEmpty then stage1Pages rest (i + 1)
    else ⟨i + 1, p, some "PyPDF2", none⟩ :: stage1Pages rest (i + 1)

/-- `text_content` accumulated by the PyPDF2 loop. -/
def stage1Text : List String → Nat → List Char
  | [], _ => []
  | p :: rest, i =>
    if (pstrip p.data).isEmpty then stage1Text rest (i + 1)
    else pageMarker (i + 1) ++ p.data ++ stage1Text rest (i + 1)

/-- `if page_text:` — pdfplumber's result is kept when truthy. -/
def stage2Keep : Option String → Bool
  | some s => !s.isEmpty
  | none => false

def stage2Pages : List (Option String) → Nat → List Page
  | [], _ => []
  | o :: rest, i =>
    match o with
    | some s =>
      if s.isEmpty then stage2Pages rest (i + 1)
      else ⟨i + 1, s, some "pdfplumber", none⟩ :: stage2Pages rest (i + 1)
    | none => stage2Pages rest (i + 1)

def stage2Text : List (Option String) → Nat → List Char
  | [], _ => []
  | o :: rest, i =>
    match o with
    | some s =>
      if s.isEmpty then stage2Text rest (i + 1)
      else pageMarker (i + 1) ++ s.data ++ stage2Text rest (i + 1)
    | none => stage2Text rest (i + 1)

/-- The first structural stage returns early iff it did not raise and its
concatenated `text_content` strips to non-empty. -/
def stage1Succeeds (d : PdfDoc) : Bool :=
  d.s1.error.isNone && !(pstrip (stage1Text d.s1.pages 0)).isEmpty

def stage2Succeeds (d : PdfDoc) : Bool :=
  d.s2.error.isNone && !(pstrip (stage2Text d.s2.pages 0)).isEmpty

/-- `OCRService.extract_text_from_pdf`.  The `pages` accumulator lives in
`extracted_data`, which both structural stages share: entries appended by a
partially-successful PyPDF2 pass survive into a pdfplumber result. -/
def extract_text_from_pdf (d : PdfDoc) : ExtractedDocument :=
  if stage1Succeeds d then
    ⟨⟨stage1Text d.s1.pages 0⟩, stage1Pages d.s1.pages 0, emptyMetadata, 9 / 10⟩
  else if stage2Succeeds d then
    ⟨⟨stage2Text d.s2.pages 0⟩, stage1Pages d.s1.pages 0 ++ stage2Pages d.s2.pages 0,
      emptyMetadata, 17 / 20⟩
  else extract_text_with_vision_api d.vision

/-- A document reference together with its declared kind, as `recoverText`
receives it. -/
inductive Document where
  | pdf (d : PdfDoc)
  | image (v : VisionResponse)
deriving Repr, DecidableEq

/-- The spec's `recoverText(documentPath, kind)`: the PDF chain for PDFs, and
image preprocessing followed by the recognition adapter for images (the
preprocessing changes pixels only, which the abstract response absorbs). -/
def recoverText : Document → ExtractedDocument
  | .pdf d => extract_text_from_pdf d
  | .image v => extract_text_with_vision_api v

/-! ### Helper lemmas about the chain -/

theorem stage1Pages_nil_text (ps : List String) :
    ∀ i, stage1Pages ps i = [] → stage1Text ps i = [] := by
  induction ps with
  | nil => intro i _; rfl
  | cons p rest ih =>
    intro i h
    by_cases hp : (pstrip p.data).isEmpty
    · simp only [stage1Pages, hp, if_true] at h
      simp only [stage1Text, hp, if_true]
      exact ih _ h
    · simp [stage1Pages, hp] at h

theorem stage2Pages_nil_text (ps : List (Option String)) :
    ∀ i, stage2Pages ps i = [] → stage2Text ps i = [] := by
  induction ps with
  | nil => intro i _; rfl
  | cons o rest ih =>
    intro i h
    match o with
    | none =>
      simp only [stage2Pages] at h
      simp only [stage2Text]
      exact ih _ h
    | some s =>
      by_cases hs : s.isEmpty
      · simp only [stage2Pages, hs, if_true] at h
        simp only [stage2Text, hs, if_true]
        exact ih _ h
      · simp [stage2Pages, hs] at h

/-! ### The claims -/

/-- Claim C1: for every PDF document, a result produced by the first chain
stage (PyPDF2 structural extraction) has confidence exactly 0.9 and is
returned immediately, a result produced by the second stage (pdfplumber) has
confidence exactly 0.85, and the two confidences differ, so no single
returned document reports both. -/
theorem C1_stage_confidences (d : PdfDoc) :
    (stage1Succeeds d = true →
      extract_text_from_pdf d =
        ⟨⟨stage1Text d.s1.pages 0⟩, stage1Pages d.s1.pages 0, emptyMetadata, 9 / 10⟩) ∧
    (stage1Succeeds d = false → stage2Succeeds d = true →
      extract_text_from_pdf d =
        ⟨⟨stage2Text d.s2.pages 0⟩, stage1Pages d.s1.pages 0 ++ stage2Pages d.s2.pages 0,
          emptyMetadata, 17 / 20⟩) ∧
    ((9 : ℚ) / 10 ≠ 17 / 20) := by
  refine ⟨?_, ?_, by norm_num⟩
  · intro h
    simp [extract_text_from_pdf, h]
  · intro h1 h2
    simp [extract_text_from_pdf, h1, h2]

def c1DocA : PdfDoc := ⟨⟨["Hello page"], none⟩, ⟨[], none⟩, .ok none⟩

def c1DocB : PdfDoc := ⟨⟨[], none⟩, ⟨[some "Plumber text"], none⟩, .ok none⟩

/-- Witness for C1 at two concrete documents, one per stage. -/
theorem C1_stage_confidences_witness :
    extract_text_from_pdf c1DocA =
      ⟨⟨stage1Text c1DocA.s1.pages 0⟩, stage1Pages c1DocA.s1.pages 0, emptyMetadata, 9 / 10⟩ ∧
    extract_text_from_pdf c1DocB =
      ⟨⟨stage2Text c1DocB.s2.pages 0⟩,
        stage1Pages c1DocB.s1.pages 0 ++ stage2Pages c1DocB.s2.pages 0, emptyMetadata, 17 / 20⟩ :=
  ⟨(C1_stage_confidences c1DocA).1 (by decide),
   (C1_stage_confidences c1DocB).2.1 (by decide) (by decide)⟩

/-- Claim C2 (amended): `recoverText` never raises — it is a total function
into `ExtractedDocument`.  When a *structural* PDF stage succeeds the result
has positive confidence and non-empty pages; when the structural stages fail
and the vision service reports an error (and likewise for an image whose
recognition reports an error) the result is the empty document with
`metadata.error` carrying the failure's description.  (A vision-stage result
may, however, report non-empty text with confidence 0 or empty pages, and a
vision call that finds no text yields the empty result without
`metadata.error` — see the counterexample.) -/
theorem C2_recoverText_amended (doc : Document) :
    (∀ d, doc = .pdf d → (stage1Succeeds d || stage2Succeeds d) = true →
      (recoverText doc).confidence > 0 ∧ (recoverText doc).pages ≠ []) ∧
    (∀ d msg, doc = .pdf d → stage1Succeeds d = false → stage2Succeeds d = false →
      d.vision = .err msg →
      recoverText doc = ⟨"", [], ⟨none, none, some ("Vision API error: " ++ msg)⟩, 0⟩) ∧
    (∀ msg, doc = .image (.err msg) →
      recoverText doc = ⟨"", [], ⟨none, none, some ("Vision API error: " ++ msg)⟩, 0⟩) := by
  refine ⟨?_, ?_, ?_⟩
  · rintro d rfl hor
    cases h1 : stage1Succeeds d with
    | true =>
      have := (C1_stage_confidences d).1 h1
      simp only [recoverText, this]
      constructor
      · norm_num
      · intro hnil
        have htext := stage1Pages_nil_text d.s1.pages 0 hnil
        rw [stage1Succeeds, htext] at h1
        simp at h1
        exact h1.2 rfl
    | false =>
      rw [h1] at hor
      simp only [Bool.false_or] at hor
      have := (C1_stage_confidences d).2.1 h1 hor
      simp only [recoverText, this]
      constructor
      · norm_num
      · intro hnil
        rcases List.append_eq_nil.mp hnil with ⟨-, h2nil⟩
        have htext := stage2Pages_nil_text d.s2.pages 0 h2nil
        rw [stage2Succeeds, htext] at hor
        simp at hor
        exact hor.2 rfl
  · rintro d msg rfl h1 h2 hv
    simp [recoverText, extract_text_from_pdf, h1, h2, hv, extract_text_with_vision_api]
  · rintro msg rfl
    simp [recoverText, extract_text_with_vision_api]

def c2DocSuccess : PdfDoc := ⟨⟨["Hello page"], none⟩, ⟨[], none⟩, .ok none⟩

def c2DocErr : PdfDoc := ⟨⟨[], none⟩, ⟨[], none⟩, .err "cannot read"⟩

/-- Witness for C2 (amended) at concrete documents: a structural success, a
PDF whose vision stage errors, and an image whose vision call errors. -/
theorem C2_recoverText_amended_witness :
    ((recoverText (.pdf c2DocSuccess)).confidence > 0 ∧
      (recoverText (.pdf c2DocSuccess)).pages ≠ []) ∧
    recoverText (.pdf c2DocErr) =
      ⟨"", [], ⟨none, none, some ("Vision API error: " ++ "cannot read")⟩, 0⟩ ∧
    recoverText (.image (.err "bad pixels")) =
      ⟨"", [], ⟨none, none, some ("Vision API error: " ++ "bad pixels")⟩, 0⟩ :=
  ⟨(C2_recoverText_amended (.pdf c2DocSuccess)).1 c2DocSuccess rfl (by decide),
   (C2_recoverText_amended (.pdf c2DocErr)).2.1 c2DocErr "cannot read" rfl
     (by decide) (by decide) rfl,
   (C2_recoverText_amended (.image (.err "bad pixels"))).2.2 "bad pixels" rfl⟩

def c2DocTextOnly : PdfDoc := ⟨⟨[], none⟩, ⟨[], none⟩, .ok (some ⟨"A", []⟩)⟩

def c2DocEmptyVision : PdfDoc := ⟨⟨[], none⟩, ⟨[], none⟩, .ok none⟩

/-- Counterexample to C2 as stated: a PDF whose structural stages find
nothing but whose vision annotation has non-empty text `"A"` and no pages
yields non-empty recovered text with confidence `0` and empty `pages`; and a
PDF for which every strategy fails (vision succeeds but finds nothing)
yields the empty result with *no* `metadata.error` entry. -/
theorem C2_counterexample :
    (recoverText (.pdf c2DocTextOnly)).text ≠ "" ∧
    (recoverText (.pdf c2DocTextOnly)).confidence = 0 ∧
    (recoverText (.pdf c2DocTextOnly)).pages = [] ∧
    (recoverText (.pdf c2DocEmptyVision)).text = "" ∧
    (recoverText (.pdf c2DocEmptyVision)).pages = [] ∧
    (recoverText (.pdf c2DocEmptyVision)).confidence = 0 ∧
    (recoverText (.pdf c2DocEmptyVision)).metadata.error = none := by
  refine ⟨by decide, ?_, by decide, by decide, by decide, by rfl, by decide⟩
  have h : (recoverText (.pdf c2DocTextOnly)).confidence =
      docConfSum ⟨"A", []⟩ / ((max (docWordCount ⟨"A", []⟩) 1 : ℕ) : ℚ) := rfl
  rw [h]
  norm_num [docConfSum, docWordCount]

def c3Text : String := "本契約は何時でも解除でき、終了後も効力を有する。"

/-- Claim C3 is contradicted by the source (code bug): the `break` in
`classify_clauses` leaves only the paragraph loop, not the keyword loop, so a
single paragraph (longer than 20 characters) containing the two termination
keywords `解除` and `終了` yields *two* clauses of type `termination` — one
per keyword — although the source's own comment (`各タイプにつき1つずつ`, one
per type) and the spec promise at most one clause per category. -/
theorem C3_two_termination_clauses :
    classify_clauses c3Text.data =
      [⟨"termination", c3Text, "解除"⟩, ⟨"termination", c3Text, "終了"⟩] ∧
    ((classify_clauses c3Text.data).filter (fun c => c.type = "termination")).length = 2 ∧
    (pstrip c3Text.data).length > 20 := by
  refine ⟨by decide, by decide, by decide⟩

def c7Word : VisionWord := ⟨["H", "i"], 1⟩

def c7Block : VisionBlock := ⟨[⟨[c7Word]⟩]⟩

def c7Doc : VisionDoc := ⟨"Hi", [⟨[c7Block]⟩]⟩

/-- Claim C7 is contradicted by the source (code bug): for a response with
one page, one block, one paragraph and one word of confidence 1, the
document-level confidence is 1 (sum of word confidences over word count, as
claimed), but the stored block confidence is 0 — `block_confidence` is
initialised to 0 and never accumulated — while any aggregation of the
block's contents over its paragraph count would give 1. -/
theorem C7_block_confidence_zero :
    (extract_text_with_vision_api (.ok (some c7Doc))).confidence = 1 ∧
    (extract_text_with_vision_api (.ok (some c7Doc))).pages =
      [⟨1, "Hi \n", none, some [⟨"Hi", 0⟩]⟩] ∧
    blockConfSum c7Block / ((max c7Block.paragraphs.length 1 : ℕ) : ℚ) = 1 := by
  refine ⟨?_, ?_, ?_⟩
  · have h : (extract_text_with_vision_api (.ok (some c7Doc))).confidence =
        docConfSum c7Doc / ((max (docWordCount c7Doc) 1 : ℕ) : ℚ) := rfl
    rw [h]
    norm_num [docConfSum, docWordCount, blockConfSum, blockWordCount, c7Doc, c7Block, c7Word]
  · have h : (extract_text_with_vision_api (.ok (some c7Doc))).pages =
        [⟨1, "Hi \n", none, some [⟨"Hi", (0 : ℚ) / ((max 1 1 : ℕ) : ℚ)⟩]⟩] := rfl
    rw [h]
    norm_num
  · norm_num [blockConfSum, c7Block, c7Word]

def c10Doc : PdfDoc :=
  ⟨⟨["Secret page one text"], some "broken xref"⟩, ⟨[some "Recovered body"], none⟩, .ok none⟩

/-- Claim C10: the `pages` accumulator is shared between the two structural
stages.  For a PDF whose PyPDF2 pass records one page and then raises, after
which pdfplumber succeeds, the result has confidence 0.85 and text built from
the second stage only, yet `pages` still opens with the PyPDF2 entry, whose
text does not occur in `text`. -/
theorem C10_shared_pages_accumulator :
    extract_text_from_pdf c10Doc =
      ⟨"\n--- Page 1 ---\nRecovered body",
        [⟨1, "Secret page one text", some "PyPDF2", none⟩,
         ⟨1, "Recovered body", some "pdfplumber", none⟩],
        emptyMetadata, 17 / 20⟩ ∧
    isSubstr "Secret page one text".data (extract_text_from_pdf c10Doc).text.data = false := by
  refine ⟨by rfl, by decide⟩

instance : IsTrans (Nat × Nat × α) (fun a b => a.1 < b.1) :=
  ⟨fun _ _ _ => Nat.lt_trans⟩

/-- The scanner's matches are pairwise position-ordered. -/
theorem finditer_pairwise (m : List Char → Option (Nat × α)) (cs : List Char) :
    List.Pairwise (fun a b => a.1 < b.1) (finditer m cs) :=
  List.chain'_iff_pairwise.mp (finditer_chain m cs)

theorem partyOfMatch_position {e : Nat × Nat × List Char} {p : Party}
    (h : partyOfMatch e = some p) : p.position = e.1 := by
  unfold partyOfMatch at h
  dsimp only at h
  split at h
  · injection h with h
    rw [← h]
  · cases h

theorem dateEntryOfMatch_position {cs : List Char} {m : Nat × Nat × (Nat × Nat × Nat)}
    {en : DateEntry} (h : dateEntryOfMatch cs m = some en) : en.position = m.1 := by
  unfold dateEntryOfMatch at h
  split at h
  · injection h with h
    rw [← h]
  · cases h

theorem amountOfMatch_position {cs : List Char} {e : Nat × Nat × List Char} {a : Amount}
    (h : amountOfMatch cs e = some a) : a.position = e.1 := by
  unfold amountOfMatch at h
  split at h
  · next v hv =>
    injection h with h
    rw [← h]
  · cases h

/-- A member of a filterMapped scan comes from a genuine match. -/
theorem mem_filterMap_finditer {m : List Char → Option (Nat × α)}
    {f : Nat × Nat × α → Option β} {cs : List Char} {b : β}
    (h : b ∈ (finditer m cs).filterMap f) :
    ∃ e, m (cs.drop e.1) = some (e.2.1, e.2.2) ∧ f e = some b := by
  rcases List.mem_filterMap.mp h with ⟨e, he, hf⟩
  exact ⟨e, finditer_sound m cs e he, hf⟩

/-- Claim C4: invalid calendar fragments are silently discarded and never
enter `all_dates`; `all_dates` is the validated pool sorted ascending by
source position; `contract_date` is its first element, `effective_date` its
second when present, and `expiration_date` its last element exactly when the
pool has more than two entries. -/
theorem C4_date_selection (cs : List Char) (r : DatesResult)
    (h : extract_dates cs = some r) :
    List.Perm r.all_dates (allDatesPool cs) ∧
    List.Sorted dateLe r.all_dates ∧
    (∀ m ∈ rawDateMatches cs, validDate m.2.2.1 m.2.2.2.1 m.2.2.2.2 = false →
      dateEntryOfMatch cs m = none) ∧
    r.contract_date = r.all_dates.head? ∧
    r.effective_date = r.all_dates[1]? ∧
    r.expiration_date = if 2 < r.all_dates.length then r.all_dates.getLast? else none := by
  simp only [extract_dates] at h
  split at h
  · cases h
  · injection h with h
    subst h
    refine ⟨List.perm_insertionSort _ _, List.sorted_insertionSort _ _, ?_, rfl, rfl, rfl⟩
    intro m _ hv
    unfold dateEntryOfMatch
    simp [hv]

/-- Claim C6 (amended): the parties list is deduplicated by exact name
(pairwise distinct names, first occurrence kept: the output is a sublist of
the raw accumulator), and its order is ascending by position *within each
pattern's matches*; across patterns the order is pattern-major, not global
first-occurrence order — see the counterexample. -/
theorem C6_parties_order_amended (cs : List Char) :
    ((extract_parties cs).map Party.name).Nodup ∧
    List.Sublist (extract_parties cs) (rawParties cs) ∧
    List.Pairwise (fun a b => a.position < b.position)
      ((finditer matchParty1 cs).filterMap partyOfMatch) ∧
    List.Pairwise (fun a b => a.position < b.position)
      ((finditer matchParty2 cs).filterMap partyOfMatch) ∧
    List.Pairwise (fun a b => a.position < b.position)
      ((finditer matchParty3 cs).filterMap partyOfMatch) := by
  refine ⟨?_, ?_, ?_, ?_, ?_⟩
  · exact (List.Sublist.map Party.name (List.take_sublist _ _)).nodup
      (dedupParties_nodup (rawParties cs) [])
  · exact (List.take_sublist _ _).trans (dedupParties_sublist _ _)
  all_goals
    refine List.pairwise_filterMap.mpr ((finditer_pairwise _ _).imp ?_)
    intro a b hab p hp p' hp'
    rw [partyOfMatch_position (Option.mem_def.mp hp),
      partyOfMatch_position (Option.mem_def.mp hp')]
    exact hab

def c6Text : String := "Abcd Efgh Inc. 株式会社テスト"

/-- Counterexample to C6 as stated: the romanized company at offset 0 comes
*after* the Japanese matches found at offsets 15 and 14, because the source
iterates pattern-major; the position sequence 15, 14, 0 is not ascending. -/
theorem C6_counterexample :
    extract_parties c6Text.data =
      [⟨"株式会社テスト", "company", 15⟩, ⟨"株式会社", "company", 14⟩,
       ⟨"Abcd Efgh Inc.", "company", 0⟩] ∧
    ¬ List.Sorted (· ≤ ·) ((extract_parties c6Text.data).map Party.position) := by
  refine ⟨by decide, by decide⟩

/-- Claim C9: every `ContractInfo` has at most 10 parties with pairwise
distinct names, at most 5 amounts, and at most 20 key terms. -/
theorem C9_result_caps (cs : List Char) :
    (extract_contract_information cs).parties.length ≤ 10 ∧
    ((extract_contract_information cs).parties.map Party.name).Nodup ∧
    (extract_contract_information cs).amounts.length ≤ 5 ∧
    (extract_contract_information cs).key_terms.length ≤ 20 := by
  refine ⟨List.length_take_le _ _, ?_, List.length_take_le _ _, List.length_take_le _ _⟩
  exact (List.Sublist.map Party.name (List.take_sublist _ _)).nodup
    (dedupParties_nodup (rawParties cs) [])

/-- Some party pattern of the source matches at position `e.1` with length
`e.2.1` and capture `e.2.2`. -/
def partyMatchAt (cs : List Char) (e : Nat × Nat × List Char) : Prop :=
  matchParty1 (cs.drop e.1) = some (e.2.1, e.2.2) ∨
  matchParty2 (cs.drop e.1) = some (e.2.1, e.2.2) ∨
  matchParty3 (cs.drop e.1) = some (e.2.1, e.2.2)

/-- Some date pattern of the source matches at position `m.1`. -/
def dateMatchAt (cs : List Char) (m : Nat × Nat × (Nat × Nat × Nat)) : Prop :=
  matchDateJp (cs.drop m.1) = some (m.2.1, m.2.2) ∨
  matchDateSep '/' (cs.drop m.1) = some (m.2.1, m.2.2) ∨
  matchDateSep '-' (cs.drop m.1) = some (m.2.1, m.2.2) ∨
  matchDateUs (cs.drop m.1) = some (m.2.1, m.2.2)

/-- Some amount pattern of the source matches at position `e.1`. -/
def amountMatchAt (cs : List Char) (e : Nat × Nat × List Char) : Prop :=
  matchAmountYenUnit (cs.drop e.1) = some (e.2.1, e.2.2) ∨
  matchAmountYenSign (cs.drop e.1) = some (e.2.1, e.2.2) ∨
  matchAmountDollar (cs.drop e.1) = some (e.2.1, e.2.2) ∨
  matchAmountCode (cs.drop e.1) = some (e.2.1, e.2.2)

/-- Claim C5 (amended): every party, every date entry and every amount in the
returned `ContractInfo` carries a `position` equal to the zero-based offset
at which a genuine match of the corresponding pattern begins.  Key-term and
clause records, however, carry no position field at all — see the
counterexample. -/
theorem C5_positions_amended (cs : List Char) :
    (∀ p ∈ (extract_contract_information cs).parties,
      ∃ e, partyMatchAt cs e ∧ p.position = e.1 ∧ partyOfMatch e = some p) ∧
    (∀ r, (extract_contract_information cs).dates = some r →
      ∀ en ∈ r.all_dates,
        ∃ m, dateMatchAt cs m ∧ en.position = m.1 ∧ dateEntryOfMatch cs m = some en) ∧
    (∀ a ∈ (extract_contract_information cs).amounts,
      ∃ e, amountMatchAt cs e ∧ a.position = e.1 ∧ amountOfMatch cs e = some a) := by
  refine ⟨?_, ?_, ?_⟩
  · intro p hp
    have hraw : p ∈ rawParties cs :=
      ((List.take_sublist _ _).trans (dedupParties_sublist _ _)).subset hp
    unfold rawParties at hraw
    rcases List.mem_append.mp hraw with hmem | hmem
    rcases List.mem_append.mp hmem with hmem | hmem
    · rcases mem_filterMap_finditer hmem with ⟨e, hme, hfe⟩
      exact ⟨e, Or.inl hme, partyOfMatch_position hfe, hfe⟩
    · rcases mem_filterMap_finditer hmem with ⟨e, hme, hfe⟩
      exact ⟨e, Or.inr (Or.inl hme), partyOfMatch_position hfe, hfe⟩
    · rcases mem_filterMap_finditer hmem with ⟨e, hme, hfe⟩
      exact ⟨e, Or.inr (Or.inr hme), partyOfMatch_position hfe, hfe⟩
  · intro r hr en hen
    have hperm := (C4_date_selection cs r hr).1
    have hpool : en ∈ allDatesPool cs := hperm.subset hen
    unfold allDatesPool at hpool
    rcases List.mem_filterMap.mp hpool with ⟨m, hm, hfm⟩
    unfold rawDateMatches at hm
    have hpos := dateEntryOfMatch_position hfm
    rcases List.mem_append.mp hm with hm' | hm4
    · rcases List.mem_append.mp hm' with hm'' | hm3
      · rcases List.mem_append.mp hm'' with hm1 | hm2
        · exact ⟨m, Or.inl (finditer_sound _ cs m hm1), hpos, hfm⟩
        · exact ⟨m, Or.inr (Or.inl (finditer_sound _ cs m hm2)), hpos, hfm⟩
      · exact ⟨m, Or.inr (Or.inr (Or.inl (finditer_sound _ cs m hm3))), hpos, hfm⟩
    · exact ⟨m, Or.inr (Or.inr (Or.inr (finditer_sound _ cs m hm4))), hpos, hfm⟩
  · intro a ha
    have hraw : a ∈ rawAmounts cs := (List.take_sublist _ _).subset ha
    unfold rawAmounts at hraw
    rcases List.mem_append.mp hraw with h' | h4
    · rcases List.mem_append.mp h' with h'' | h3
      · rcases List.mem_append.mp h'' with h1 | h2
        · rcases mem_filterMap_finditer h1 with ⟨e, hme, hfe⟩
          exact ⟨e, Or.inl hme, amountOfMatch_position hfe, hfe⟩
        · rcases mem_filterMap_finditer h2 with ⟨e, hme, hfe⟩
          exact ⟨e, Or.inr (Or.inl hme), amountOfMatch_position hfe, hfe⟩
      · rcases mem_filterMap_finditer h3 with ⟨e, hme, hfe⟩
        exact ⟨e, Or.inr (Or.inr (Or.inl hme)), amountOfMatch_position hfe, hfe⟩
    · rcases mem_filterMap_finditer h4 with ⟨e, hme, hfe⟩
      exact ⟨e, Or.inr (Or.inr (Or.inr hme)), amountOfMatch_position hfe, hfe⟩

def c5wText : String := "株式会社テスト 2024年1月15日 ¥500"

def c5wParty : Party := ⟨"株式会社テスト 2024年1月15日", "company", 0⟩

def c5wEntry : DateEntry := ⟨"2024-01-15T00:00:00", "2024年1月15日", 8⟩

def c5wDates : DatesResult := ⟨some c5wEntry, none, none, [c5wEntry]⟩

def c5wAmount : Amount := ⟨((500 : ℕ) : ℚ), "¥500", "JPY", 19⟩

/-- Witness for C5 (amended) at a concrete text containing a party, a date
and an amount. -/
theorem C5_positions_amended_witness :
    (∃ e, partyMatchAt c5wText.data e ∧ c5wParty.position = e.1 ∧
      partyOfMatch e = some c5wParty) ∧
    (∃ m, dateMatchAt c5wText.data m ∧ c5wEntry.position = m.1 ∧
      dateEntryOfMatch c5wText.data m = some c5wEntry) ∧
    (∃ e, amountMatchAt c5wText.data e ∧ c5wAmount.position = e.1 ∧
      amountOfMatch c5wText.data e = some c5wAmount) :=
  ⟨(C5_positions_amended c5wText.data).1 c5wParty (by decide),
   (C5_positions_amended c5wText.data).2.1 c5wDates (by decide) c5wEntry (by decide),
   (C5_positions_amended c5wText.data).2.2 c5wAmount
     (List.mem_singleton.mpr rfl)⟩

def c5TextA : String := "支払は絶対に期限内に行うものとする"

def c5TextB : String := "ああ。支払は絶対に期限内に行うものとする"

/-- Counterexample to C5 as stated: key-term records (dicts with keys
`keyword`, `text`, `importance` only — source lines 425–429) carry no
position field.  The same sentence matched at offset 0 of one text and at
offset 3 of another yields *identical* records, so no component of the record
equals the offset at which the item's match begins.  (Clause records — keys
`type`, `content`, `keyword` — likewise carry no position.) -/
theorem C5_counterexample :
    extract_key_terms c5TextB.data = extract_key_terms c5TextA.data ∧
    extract_key_terms c5TextA.data ≠ [] ∧
    c5TextB.data = "ああ。".data ++ c5TextA.data := by
  refine ⟨by decide, by decide, by decide⟩

/-- Claim C8 (amended): for a text whose validated date pool consists of the
matches `2024年1月15日` and `2024年6月30日` in that order, the result's
`contract_date` is the first of them — its `date` being the ISO-8601
*datetime* `2024-01-15T00:00:00` produced by `datetime.isoformat()`, not the
bare date `2024-01-15` — `expiration_date` is absent, and `all_dates` has
exactly these two entries ordered by position. -/
theorem C8_two_dates_amended (cs : List Char) (p q : Nat)
    (h : allDatesPool cs =
      [⟨"2024-01-15T00:00:00", "2024年1月15日", p⟩,
       ⟨"2024-06-30T00:00:00", "2024年6月30日", q⟩])
    (hpq : p ≤ q) :
    extract_dates cs = some
      ⟨some ⟨"2024-01-15T00:00:00", "2024年1月15日", p⟩,
       some ⟨"2024-06-30T00:00:00", "2024年6月30日", q⟩,
       none,
       [⟨"2024-01-15T00:00:00", "2024年1月15日", p⟩,
        ⟨"2024-06-30T00:00:00", "2024年6月30日", q⟩]⟩ := by
  unfold extract_dates
  rw [h]
  simp [List.insertionSort, List.orderedInsert, dateLe, hpq]

def c8Text : String := "契約日2024年1月15日から2024年6月30日まで"

/-- Witness for C8 (amended) at a concrete text (matches at offsets 3 and 15). -/
theorem C8_two_dates_amended_witness :
    extract_dates c8Text.data = some
      ⟨some ⟨"2024-01-15T00:00:00", "2024年1月15日", 3⟩,
       some ⟨"2024-06-30T00:00:00", "2024年6月30日", 15⟩,
       none,
       [⟨"2024-01-15T00:00:00", "2024年1月15日", 3⟩,
        ⟨"2024-06-30T00:00:00", "2024年6月30日", 15⟩]⟩ :=
  C8_two_dates_amended c8Text.data 3 15 (by decide) (by decide)

/-- Counterexample to C8 as stated: `contract_date.date` is the full
`datetime.isoformat()` string `2024-01-15T00:00:00`, not `2024-01-15`. -/
theorem C8_counterexample :
    ((extract_dates c8Text.data).bind DatesResult.contract_date).map DateEntry.date =
      some "2024-01-15T00:00:00" ∧
    ("2024-01-15T00:00:00" : String) ≠ "2024-01-15" := by
  refine ⟨by decide, by decide⟩

def c4Text : String := "x 2024年13月1日 y 2024-3-4 z 12/31/2024 w 2024/5/6"

def c4e1 : DateEntry := ⟨"2024-03-04T00:00:00", "2024-3-4", 15⟩

def c4e2 : DateEntry := ⟨"2024-12-31T00:00:00", "12/31/2024", 26⟩

def c4e3 : DateEntry := ⟨"2024-05-06T00:00:00", "2024/5/6", 39⟩

def c4Result : DatesResult := ⟨some c4e1, some c4e2, some c4e3, [c4e1, c4e2, c4e3]⟩

/-- Witness for C4 at a concrete text whose month-13 fragment is discarded
while the three valid dates are pooled and sorted. -/
theorem C4_date_selection_witness :
    List.Perm c4Result.all_dates (allDatesPool c4Text.data) ∧
    List.Sorted dateLe c4Result.all_dates ∧
    (∀ m ∈ rawDateMatches c4Text.data, validDate m.2.2.1 m.2.2.2.1 m.2.2.2.2 = false →
      dateEntryOfMatch c4Text.data m = none) ∧
    c4Result.contract_date = c4Result.all_dates.head? ∧
    c4Result.effective_date = c4Result.all_dates[1]? ∧
    c4Result.expiration_date =
      if 2 < c4Result.all_dates.length then c4Result.all_dates.getLast? else none :=
  C4_date_selection c4Text.data c4Result (by decide)

end ContractOCR
